import Mathlib

/-!
# Commander panel controller (`src/hci/commander.cpp`)

A shallow embedding of the list-maintenance and selection logic of
`CommanderController` and of the label formatting of its row widgets.

Pointers to droids are addresses (`DroidPtr`); a nullable pointer is an
`Option`.  The fields of the object behind a pointer are read through the
object store `GameState.droids`.  The chain `apsDroidLists[p]`, followed through
`psNext` up to the terminating null pointer, is the finite list of the
addresses it visits.
-/

set_option autoImplicit false

namespace Commander

/-! ## Data model -/

/-- Address of a `DROID` object; `DROID *` values that may be null are `Option DroidPtr`. -/
abbrev DroidPtr := Nat

/-- Address of a `STRUCTURE_STATS` record. -/
abbrev StatsPtr := Nat

/-- Modelled from the spec: the enumeration `DROID_TYPE` is declared in a header
outside `commander.cpp`.  The spec gives a unit "a type tag (only "commander"
type units are relevant)", so a tag is the commander tag or some other tag,
told apart by its number. -/
inductive DROID_TYPE where
  | DROID_COMMAND
  | DROID_OTHER (tag : Nat)
  deriving DecidableEq, Repr

/-- The fields of `DROID` that `commander.cpp` reads. -/
structure DROID where
  /-- Type tag of the unit. -/
  droidType : DROID_TYPE
  /-- Time of death; `0` while the unit is alive. -/
  died : Nat
  /-- The 32-bit secondary order word. -/
  secondaryOrder : Nat
  deriving DecidableEq, Repr

/-- The fields of `STRUCTURE` that `commander.cpp` reads. -/
structure STRUCTURE where
  /-- Pointer to the statistics record of the structure (nullable). -/
  pStructureType : Option StatsPtr
  deriving DecidableEq, Repr

/-- Process-wide state read by the controller. -/
structure GameState where
  /-- Object store: the droid behind each address. -/
  droids : DroidPtr → DROID
  /-- Per player, the chain of droids `apsDroidLists[player]` in `psNext` order. -/
  apsDroidLists : Nat → List DroidPtr
  /-- Index of the active player. -/
  selectedPlayer : Nat
  /-- The static member `CommanderController::highlightedCommander`. -/
  highlightedCommander : Option DroidPtr

/-- Instance state of `CommanderController`: the vector `commanders`. -/
structure CommanderController where
  commanders : List DroidPtr
  deriving DecidableEq, Repr

/-! ## `updateCommandersList` -/

/-- The test of the `if` in the scan loop:
`droid->droidType == DROID_COMMAND && droid->died == 0`. -/
def isAliveCommander (g : GameState) (droid : DroidPtr) : Bool :=
  decide ((g.droids droid).droidType = DROID_TYPE.DROID_COMMAND) && decide ((g.droids droid).died = 0)

/-- The `for` loop of `updateCommandersList`: walks the chain and appends
(`push_back`) every droid passing the test to the vector built so far. -/
def scanDroids (g : GameState) : List DroidPtr → List DroidPtr → List DroidPtr
  | [], commanders => commanders
  | droid :: psNext, commanders =>
    if isAliveCommander g droid then
      scanDroids g psNext (commanders ++ [droid])
    else
      scanDroids g psNext commanders

/-- `CommanderController::updateCommandersList`: clear, scan, reverse. -/
def updateCommandersList (g : GameState) (c : CommanderController) : CommanderController :=
  let cleared : CommanderController := { c with commanders := [] }
  let scanned := scanDroids g (g.apsDroidLists g.selectedPlayer) cleared.commanders
  { cleared with commanders := scanned.reverse }

/-- Modelled from the spec: `getObjectAt` is defined in `commander.h`, outside
the source file.  The spec says `getAt(index)` "returns the unit at the given
position in the current list, or a "not found" signal if index is out of
range". -/
def getObjectAt (c : CommanderController) (index : Nat) : Option DroidPtr :=
  if h : index < c.commanders.length then some (c.commanders.get ⟨index, h⟩) else none

/-- Modelled from the spec: `objectsSize` is defined in `commander.h`, outside
the source file; it is the length of the current list (the spec's "list
empty" test of `refresh`). -/
def objectsSize (c : CommanderController) : Nat :=
  c.commanders.length

/-- Modelled from the spec: `getHighlightedObject` is defined in `commander.h`,
outside the source file; it reads the highlighted reference, "a single optional
reference to one Unit, process-wide". -/
def getHighlightedObject (g : GameState) : Option DroidPtr :=
  g.highlightedCommander

/-! ### Example world of the spec scenario -/

/-- Units A (address 1, commander, alive), B (2, trooper, alive),
C (3, commander, dead at time 77), D (4, commander, alive), chained A→B→C→D
for player 0.  With a factory window starting at bit 13, D has the factories
1, 3 and 5 assigned (bits 13, 15, 17) and A none; both have bits 3 and 20 set,
which lie outside the window. -/
def scenario : GameState where
  droids := fun p =>
    if p = 1 then ⟨DROID_TYPE.DROID_COMMAND, 0, 2 ^ 3 + 2 ^ 20⟩
    else if p = 2 then ⟨DROID_TYPE.DROID_OTHER 0, 0, 0⟩
    else if p = 3 then ⟨DROID_TYPE.DROID_COMMAND, 77, 0⟩
    else if p = 4 then ⟨DROID_TYPE.DROID_COMMAND, 0, 2 ^ 13 + 2 ^ 15 + 2 ^ 17 + 2 ^ 3 + 2 ^ 20⟩
    else ⟨DROID_TYPE.DROID_OTHER 0, 0, 0⟩
  apsDroidLists := fun player => if player = 0 then [1, 2, 3, 4] else []
  selectedPlayer := 0
  highlightedCommander := none

/-! ## `getObjectStatsAt` -/

/-- `CommanderController::getObjectStatsAt`, a `const` member function.  The
resolver `droidGetCommandFactory` lives outside the source file and is a
parameter.  `ASSERT_NOT_NULLPTR_OR_RETURN(nullptr, droid)` returns the null
pointer when `droid` is null. -/
def getObjectStatsAt (droidGetCommandFactory : DroidPtr → Option STRUCTURE)
    (c : CommanderController) (objectIndex : Nat) : Option StatsPtr :=
  match getObjectAt c objectIndex with
  | none => none
  | some droid =>
    match droidGetCommandFactory droid with
    | none => none
    | some assignedFactory => assignedFactory.pStructureType

/-! ## `refresh`, `showInterface`, `displayOrderForm` -/

/-- Calls made to the UI layer, in the order they are made. -/
inductive UiCall where
  /-- `closeInterface()`: tear the panel down. -/
  | closeInterface
  /-- `intAddOrder(psObj)`: (re)display the order form for `psObj`. -/
  | intAddOrder (psObj : Option DroidPtr)
  /-- `psWScreen->psForm->attach(objectsForm)`: attach a new objects form. -/
  | attachObjectsForm
  deriving DecidableEq, Repr

/-- What a non-`const` member function of the controller works on: the
process-wide state, the controller instance, and the log of UI calls. -/
structure Session where
  game : GameState
  controller : CommanderController
  ui : List UiCall

/-- Modelled from the spec: `updateHighlighted` is inherited from the base
controller, outside the source file.  By the spec it "re-validates the
externally-set highlighted reference", so it rewrites the highlighted reference
and nothing else; which value it stores is left to the parameter `resolve`. -/
def updateHighlighted (resolve : GameState → CommanderController → Option DroidPtr)
    (s : Session) : Session :=
  { s with game := { s.game with highlightedCommander := resolve s.game s.controller } }

/-- `CommanderController::updateData`. -/
def updateData (resolve : GameState → CommanderController → Option DroidPtr)
    (s : Session) : Session :=
  let s1 : Session := { s with controller := updateCommandersList s.game s.controller }
  updateHighlighted resolve s1

/-- Modelled from the spec: `closeInterface` is inherited from the base
controller, outside the source file; it is the signal to "tear down the
panel". -/
def closeInterface (s : Session) : Session :=
  { s with ui := s.ui ++ [UiCall.closeInterface] }

/-- `CommanderController::displayOrderForm`: `intAddOrder(getHighlightedObject())`. -/
def displayOrderForm (s : Session) : Session :=
  { s with ui := s.ui ++ [UiCall.intAddOrder (getHighlightedObject s.game)] }

/-- `CommanderController::refresh`. -/
def refresh (resolve : GameState → CommanderController → Option DroidPtr)
    (s : Session) : Session :=
  let s1 := updateData resolve s
  if objectsSize s1.controller = 0 then
    closeInterface s1
  else
    displayOrderForm s1

/-- `CommanderController::showInterface`: the returned flag and the state left behind. -/
def showInterface (resolve : GameState → CommanderController → Option DroidPtr)
    (s : Session) : Bool × Session :=
  let s1 := updateData resolve s
  if s1.controller.commanders.isEmpty then
    (false, s1)
  else
    let s2 : Session := { s1 with ui := s1.ui ++ [UiCall.attachObjectsForm] }
    (true, displayOrderForm s2)

/-! ## `CommanderStatsButton` -/

/-- `CommanderStatsButton::isSelected`:
`droid && droid == controller->getHighlightedObject()`. -/
def isSelected (g : GameState) (c : CommanderController) (objectIndex : Nat) : Bool :=
  match getObjectAt c objectIndex with
  | none => false
  | some droid => decide (some droid = getHighlightedObject g)

/-- The part of a `W_LABEL` the controller's widgets touch: its string and
whether it is shown. -/
structure W_LABEL where
  text : String
  visible : Bool
  deriving DecidableEq, Repr

/-- The constant `maxAssignedFactories`. -/
def maxAssignedFactories : Nat := 5

/-- The bit test of the loop body, on 32-bit words:
`droid->secondaryOrder & (1 << (i + factoryTypeShift))`.
The shift is the C++ one only for `i + factoryTypeShift ≤ 31`. -/
def factoryBitSet (secondaryOrder factoryTypeShift i : Nat) : Bool :=
  decide (secondaryOrder % 2 ^ 32 &&& (1 <<< (i + factoryTypeShift)) % 2 ^ 32 ≠ 0)

/-- One iteration of the loop of `updateAssignedFactoriesLabel` on the pair
(`text`, `index`): `text[index++] = '1' + i` when the bit is set.  A write past
the end of the buffer is not a C++ behaviour; `List.set` then leaves the buffer
as it is. -/
def labelStep (secondaryOrder factoryTypeShift : Nat) (st : List Nat × Nat) (i : Nat) :
    List Nat × Nat :=
  if factoryBitSet secondaryOrder factoryTypeShift i then
    (st.1.set st.2 (('1'.toNat + i) % 256), st.2 + 1)
  else
    st

/-- The buffer and write index after the first `n` iterations, starting from
`char text[maxAssignedFactories + 1] = {0}` and `index = 0`. -/
def labelLoop (secondaryOrder factoryTypeShift n : Nat) : List Nat × Nat :=
  (List.range n).foldl (labelStep secondaryOrder factoryTypeShift)
    (List.replicate (maxAssignedFactories + 1) 0, 0)

/-- The string a zero-terminated `char` buffer denotes: the bytes before the
first zero byte. -/
def cString (buffer : List Nat) : String :=
  String.mk ((buffer.takeWhile (fun b => b ≠ 0)).map Char.ofNat)

/-- `CommanderStatsButton::updateAssignedFactoriesLabel`: the label it is given,
after the call. -/
def updateAssignedFactoriesLabel (g : GameState) (label : W_LABEL) (droid : DroidPtr)
    (factoryTypeShift : Nat) : W_LABEL :=
  let r := labelLoop (g.droids droid).secondaryOrder factoryTypeShift maxAssignedFactories
  if r.2 > 0 then
    { text := cString r.1, visible := true }
  else
    { label with visible := false }

/-- The text the label is expected to carry: the digit `'1' + i` for each `i`
of `0..4`, ascending, whose bit `i + factoryTypeShift` is set. -/
def assignedDigits (secondaryOrder factoryTypeShift : Nat) : List Char :=
  ((List.range 5).filter (fun i => secondaryOrder.testBit (i + factoryTypeShift))).map
    (fun i => Char.ofNat ('1'.toNat + i))

/-! ## `CommanderObjectButton` -/

/-- The conversion `(int)x` of an `unsigned int` value. -/
def toInt (x : Nat) : Int :=
  if x % 2 ^ 32 < 2 ^ 31 then ((x % 2 ^ 32 : Nat) : Int) else ((x % 2 ^ 32 : Nat) : Int) - 2 ^ 32

/-- The local `numStars` of `updateExperienceStarsLabel`:
`std::max((int)getDroidLevel(droid) - 1, 0)`, for the level `getDroidLevel`
returns. -/
def numStars (level : Nat) : Int :=
  max (toInt level - 1) 0

/-- `CommanderObjectButton::updateExperienceStarsLabel`: the experience label
after the call, the string of `numStars` copies of `'*'`, shown.  The function
`getDroidLevel` lives outside the source file and is a parameter. -/
def updateExperienceStarsLabel (getDroidLevel : DroidPtr → Nat) (_label : W_LABEL)
    (droid : DroidPtr) : W_LABEL :=
  { text := String.mk (List.replicate (numStars (getDroidLevel droid)).toNat '*'),
    visible := true }

/-- The loop of `updateAssignedFactoriesLabel` written out for the outcomes
`b0 … b4` of its five bit tests. -/
def labelLoopBits (b0 b1 b2 b3 b4 : Bool) : List Nat × Nat :=
  let step := fun (b : Bool) (st : List Nat × Nat) (i : Nat) =>
    if b then (st.1.set st.2 (('1'.toNat + i) % 256), st.2 + 1) else st
  step b4 (step b3 (step b2 (step b1 (step b0 ([0, 0, 0, 0, 0, 0], 0) 0) 1) 2) 3) 4

/-- The digits `'1' … '5'` selected by the flags `b0 … b4`, ascending. -/
def digitsOfBits (b0 b1 b2 b3 b4 : Bool) : List Char :=
  (if b0 then ['1'] else []) ++ (if b1 then ['2'] else []) ++ (if b2 then ['3'] else [])
    ++ (if b3 then ['4'] else []) ++ (if b4 then ['5'] else [])

/-- The scenario after unit A (address 1) died at time 5; nothing else changed. -/
def scenarioAfterDeath : GameState :=
  { scenario with droids := fun p => if p = 1 then ⟨DROID_TYPE.DROID_COMMAND, 5, 0⟩ else scenario.droids p }

/-- A session on the scenario: a stale commanders list, D highlighted, no UI
call made yet. -/
def scenarioSession : Session :=
  { game := { scenario with highlightedCommander := some 4 }, controller := ⟨[3, 3]⟩, ui := [] }

/-- The same session with player 1 active, whose chain is empty. -/
def emptySession : Session :=
  { game := { scenario with selectedPlayer := 1, highlightedCommander := some 4 },
    controller := ⟨[3, 3]⟩, ui := [] }

/-- Experience levels for the scenario: D (address 4) has level 4, every other
unit level 0. -/
def scenarioLevel (droid : DroidPtr) : Nat :=
  if droid = 4 then 4 else 0

/-- A factory resolver for the scenario: D (address 4) is served by a factory
whose statistics record is at address 900, A (address 1) by none. -/
def scenarioFactory (droid : DroidPtr) : Option STRUCTURE :=
  if droid = 4 then some ⟨some 900⟩ else none

/-- A resolver for the highlighted reference: keep it when it is in the list,
else take the first droid of the list. -/
def keepOrFirst (g : GameState) (c : CommanderController) : Option DroidPtr :=
  match g.highlightedCommander with
  | some d => if d ∈ c.commanders then some d else c.commanders.head?
  | none => c.commanders.head?

/-! ## Lemmas on the scan -/

theorem scanDroids_eq_append_filter (g : GameState) (units acc : List DroidPtr) :
    scanDroids g units acc = acc ++ units.filter (isAliveCommander g) := by
  induction units generalizing acc with
  | nil => simp [scanDroids]
  | cons d rest ih =>
    by_cases hd : isAliveCommander g d = true
    · simp [scanDroids, hd, ih]
    · simp [scanDroids, hd, ih]

theorem updateCommandersList_commanders (g : GameState) (c : CommanderController) :
    (updateCommandersList g c).commanders
      = ((g.apsDroidLists g.selectedPlayer).filter (isAliveCommander g)).reverse := by
  simp [updateCommandersList, scanDroids_eq_append_filter]

theorem isAliveCommander_iff (g : GameState) (d : DroidPtr) :
    isAliveCommander g d = true
      ↔ (g.droids d).droidType = DROID_TYPE.DROID_COMMAND ∧ (g.droids d).died = 0 := by
  simp [isAliveCommander]

theorem mem_updateCommandersList (g : GameState) (c : CommanderController) (d : DroidPtr) :
    d ∈ (updateCommandersList g c).commanders
      ↔ d ∈ g.apsDroidLists g.selectedPlayer ∧ isAliveCommander g d = true := by
  simp [updateCommandersList_commanders]

/-! ## The rebuilt list -/

/-- Claim C1: whatever the commanders list held before, after
`updateCommandersList` it is the reverse of the sub-list of the player's chain
made of the droids with `droidType == DROID_COMMAND` and `died == 0`; a droid is
in it exactly when it is an alive commander of the chain, as often as the scan
meets it; and on the chain A→B→C→D of the scenario the result is [D, A]. -/
theorem updateCommandersList_eq_reverse_filter (g : GameState) (c : CommanderController) :
    (updateCommandersList g c).commanders
        = ((g.apsDroidLists g.selectedPlayer).filter (fun d =>
            decide ((g.droids d).droidType = DROID_TYPE.DROID_COMMAND ∧ (g.droids d).died = 0))).reverse
      ∧ (∀ d, d ∈ (updateCommandersList g c).commanders
          ↔ d ∈ g.apsDroidLists g.selectedPlayer
            ∧ (g.droids d).droidType = DROID_TYPE.DROID_COMMAND ∧ (g.droids d).died = 0)
      ∧ (∀ d, (updateCommandersList g c).commanders.count d
          = if (g.droids d).droidType = DROID_TYPE.DROID_COMMAND ∧ (g.droids d).died = 0
            then (g.apsDroidLists g.selectedPlayer).count d else 0)
      ∧ (updateCommandersList scenario c).commanders = [4, 1] := by
  have hp : (fun d => decide ((g.droids d).droidType = DROID_TYPE.DROID_COMMAND
      ∧ (g.droids d).died = 0)) = isAliveCommander g := by
    funext d
    simp [isAliveCommander]
  refine ⟨?_, ?_, ?_, ?_⟩
  · rw [hp]
    exact updateCommandersList_commanders g c
  · intro d
    rw [mem_updateCommandersList, isAliveCommander_iff]
  · intro d
    rw [updateCommandersList_commanders, List.count_reverse]
    by_cases h : (g.droids d).droidType = DROID_TYPE.DROID_COMMAND ∧ (g.droids d).died = 0
    · rw [if_pos h]
      exact List.count_filter ((isAliveCommander_iff g d).2 h)
    · rw [if_neg h]
      apply List.count_eq_zero_of_not_mem
      intro hmem
      exact h ((isAliveCommander_iff g d).1 (List.mem_filter.1 hmem).2)
  · rw [updateCommandersList_commanders]
    decide

/-- Claim C3: `updateCommandersList` does not depend on the previous contents of
the list, and a second call on an unchanged unit chain gives the list of the
first call again. -/
theorem updateCommandersList_idempotent (g : GameState) (c1 c2 : CommanderController) :
    updateCommandersList g c1 = updateCommandersList g c2
      ∧ updateCommandersList g (updateCommandersList g c1) = updateCommandersList g c1
      ∧ (updateCommandersList g (updateCommandersList g c1)).commanders
          = (updateCommandersList g c2).commanders := by
  have h : ∀ a b : CommanderController, updateCommandersList g a = updateCommandersList g b := by
    intro a b
    simp [updateCommandersList]
  exact ⟨h _ _, h _ _, congrArg CommanderController.commanders (h _ _)⟩

/-- Claim C2: every droid of the rebuilt list is an alive commander in the state
the rebuild read.  If the list is rebuilt again on the same chain in a later
state `g2` in which droid `p` has `died ≠ 0`, then `p` is not in the new list,
every droid of the old list whose record is the same in `g2` is in the new
list, the droids common to both lists come in the same order, and when `p` is
the only droid whose record changed the new list is the old one without `p`. -/
theorem rebuild_drops_dead_keeps_order (g g2 : GameState) (c : CommanderController) (p : DroidPtr)
    (hchain : g2.apsDroidLists g2.selectedPlayer = g.apsDroidLists g.selectedPlayer)
    (hdead : (g2.droids p).died ≠ 0) :
    (∀ d ∈ (updateCommandersList g c).commanders,
        (g.droids d).droidType = DROID_TYPE.DROID_COMMAND ∧ (g.droids d).died = 0)
      ∧ p ∉ (updateCommandersList g2 (updateCommandersList g c)).commanders
      ∧ (∀ q ∈ (updateCommandersList g c).commanders, g2.droids q = g.droids q →
          q ∈ (updateCommandersList g2 (updateCommandersList g c)).commanders)
      ∧ (updateCommandersList g2 (updateCommandersList g c)).commanders.filter
            (fun q => decide (q ∈ (updateCommandersList g c).commanders))
          = (updateCommandersList g c).commanders.filter
            (fun q => decide (q ∈ (updateCommandersList g2 (updateCommandersList g c)).commanders))
      ∧ ((∀ q, q ≠ p → g2.droids q = g.droids q) →
          (updateCommandersList g2 (updateCommandersList g c)).commanders
            = (updateCommandersList g c).commanders.filter (fun q => decide (q ≠ p))) := by
  have hp : isAliveCommander g2 p = false := by
    simp [isAliveCommander, hdead]
  have hsame : ∀ q, g2.droids q = g.droids q → isAliveCommander g2 q = isAliveCommander g q := by
    intro q hq
    simp [isAliveCommander, hq]
  refine ⟨?_, ?_, ?_, ?_, ?_⟩
  · intro d hd
    exact (isAliveCommander_iff g d).1 ((mem_updateCommandersList g c d).1 hd).2
  · intro hmem
    have := ((mem_updateCommandersList g2 _ p).1 hmem).2
    rw [hp] at this
    exact Bool.noConfusion this
  · intro q hq hrec
    have hq2 := (mem_updateCommandersList g c q).1 hq
    refine (mem_updateCommandersList g2 _ q).2 ⟨?_, ?_⟩
    · rw [hchain]
      exact hq2.1
    · rw [hsame q hrec]
      exact hq2.2
  · rw [updateCommandersList_commanders g2, updateCommandersList_commanders g, hchain,
      List.filter_reverse, List.filter_reverse, List.filter_filter, List.filter_filter]
    congr 1
    apply List.filter_congr
    intro q hq
    simp only [List.mem_reverse, List.mem_filter, hq, true_and]
    by_cases h1 : isAliveCommander g q = true <;> by_cases h2 : isAliveCommander g2 q = true <;>
      simp [h1, h2]
  · intro hrest
    rw [updateCommandersList_commanders g2, updateCommandersList_commanders g, hchain,
      List.filter_reverse, List.filter_filter]
    congr 1
    apply List.filter_congr
    intro q _
    by_cases hqp : q = p
    · subst hqp
      simp [hp]
    · simp [hqp, hsame q (hrest q hqp)]

/-- Witness for claim C2: in the scenario, after A dies the rebuilt list [D, A]
becomes [D]. -/
theorem rebuild_drops_dead_keeps_order_witness :
    (updateCommandersList scenario ⟨[]⟩).commanders = [4, 1]
      ∧ (updateCommandersList scenarioAfterDeath (updateCommandersList scenario ⟨[]⟩)).commanders = [4]
      ∧ 1 ∉ (updateCommandersList scenarioAfterDeath (updateCommandersList scenario ⟨[]⟩)).commanders :=
  ⟨by decide, by decide,
    (rebuild_drops_dead_keeps_order scenario scenarioAfterDeath ⟨[]⟩ 1 (by decide) (by decide)).2.1⟩

/-! ## Lookup by index -/

theorem getObjectAt_eq_getElem? (c : CommanderController) (i : Nat) :
    getObjectAt c i = c.commanders[i]? := by
  unfold getObjectAt
  by_cases h : i < c.commanders.length
  · simp [h]
  · simp [h, List.getElem?_eq_none (Nat.le_of_not_lt h)]

/-- Claim C4: on the list left by the last rebuild, `getObjectAt i` is "not
found" for `i ≥ length`; for `i < length` it is the droid the rebuild put at
position `i`, which is the alive commander number `length - 1 - i` of the scan
of the player's chain. -/
theorem getObjectAt_after_rebuild (g : GameState) (c : CommanderController) (i : Nat) :
    ((updateCommandersList g c).commanders.length ≤ i →
        getObjectAt (updateCommandersList g c) i = none)
      ∧ (i < (updateCommandersList g c).commanders.length →
          (∃ d, getObjectAt (updateCommandersList g c) i = some d
            ∧ (updateCommandersList g c).commanders[i]? = some d
            ∧ ((g.apsDroidLists g.selectedPlayer).filter (fun d =>
                decide ((g.droids d).droidType = DROID_TYPE.DROID_COMMAND ∧ (g.droids d).died = 0)))[
                  (updateCommandersList g c).commanders.length - 1 - i]? = some d)) := by
  have hp : (fun d => decide ((g.droids d).droidType = DROID_TYPE.DROID_COMMAND
      ∧ (g.droids d).died = 0)) = isAliveCommander g := by
    funext d
    simp [isAliveCommander]
  rw [hp]
  constructor
  · intro h
    rw [getObjectAt_eq_getElem?]
    exact List.getElem?_eq_none h
  · intro h
    refine ⟨(updateCommandersList g c).commanders.get ⟨i, h⟩, ?_, ?_, ?_⟩
    · simp [getObjectAt, h]
    · simp [List.getElem?_eq_getElem h]
    · have hlen : i < ((g.apsDroidLists g.selectedPlayer).filter (isAliveCommander g)).length := by
        simpa [updateCommandersList_commanders] using h
      have hrev := List.getElem?_reverse hlen
      simp only [updateCommandersList_commanders, List.length_reverse, List.get_eq_getElem]
      rw [← hrev]
      exact List.getElem?_eq_getElem _

/-- Witness for claim C4: in the scenario the rebuilt list is [D, A]; index 1
holds A, index 2 is out of range. -/
theorem getObjectAt_after_rebuild_witness :
    getObjectAt (updateCommandersList scenario ⟨[]⟩) 2 = none
      ∧ getObjectAt (updateCommandersList scenario ⟨[]⟩) 1 = some 1
      ∧ getObjectAt (updateCommandersList scenario ⟨[]⟩) 0 = some 4 :=
  ⟨(getObjectAt_after_rebuild scenario ⟨[]⟩ 2).1 (by decide), by decide, by decide⟩

/-- Claim C5: `getObjectStatsAt i` is null when `getObjectAt i` gives no
droid, null when the resolver gives no factory for the droid at `i`, and
otherwise the `pStructureType` of the factory the resolver gives for that
droid.  It is a total function of the controller it reads. -/
theorem getObjectStatsAt_cases (droidGetCommandFactory : DroidPtr → Option STRUCTURE)
    (c : CommanderController) (i : Nat) :
    (getObjectAt c i = none → getObjectStatsAt droidGetCommandFactory c i = none)
      ∧ (∀ d, getObjectAt c i = some d → droidGetCommandFactory d = none →
          getObjectStatsAt droidGetCommandFactory c i = none)
      ∧ (∀ d factory, getObjectAt c i = some d → droidGetCommandFactory d = some factory →
          getObjectStatsAt droidGetCommandFactory c i = factory.pStructureType) := by
  refine ⟨?_, ?_, ?_⟩
  · intro h
    simp [getObjectStatsAt, h]
  · intro d h hf
    simp [getObjectStatsAt, h, hf]
  · intro d factory h hf
    simp [getObjectStatsAt, h, hf]

/-- Witness for claim C5: on the list [D, A] with a factory assigned to D only,
index 0 gives D's factory record, index 1 (no factory) and index 2 (no droid)
give null. -/
theorem getObjectStatsAt_cases_witness :
    getObjectStatsAt scenarioFactory ⟨[4, 1]⟩ 0 = some 900
      ∧ getObjectStatsAt scenarioFactory ⟨[4, 1]⟩ 1 = none
      ∧ getObjectStatsAt scenarioFactory ⟨[4, 1]⟩ 2 = none :=
  ⟨(getObjectStatsAt_cases scenarioFactory ⟨[4, 1]⟩ 0).2.2 4 ⟨some 900⟩ (by decide) (by decide),
    (getObjectStatsAt_cases scenarioFactory ⟨[4, 1]⟩ 1).2.1 1 (by decide) (by decide),
    (getObjectStatsAt_cases scenarioFactory ⟨[4, 1]⟩ 2).1 (by decide)⟩

/-! ## `refresh` and `showInterface` -/

theorem updateData_controller (resolve : GameState → CommanderController → Option DroidPtr)
    (s : Session) :
    (updateData resolve s).controller = updateCommandersList s.game s.controller := rfl

theorem updateData_highlighted (resolve : GameState → CommanderController → Option DroidPtr)
    (s : Session) :
    getHighlightedObject (updateData resolve s).game
      = resolve s.game (updateCommandersList s.game s.controller) := rfl

theorem updateData_ui (resolve : GameState → CommanderController → Option DroidPtr)
    (s : Session) : (updateData resolve s).ui = s.ui := rfl

theorem rebuilt_eq_nil_iff (g : GameState) (c : CommanderController) :
    (updateCommandersList g c).commanders = []
      ↔ ∀ d ∈ g.apsDroidLists g.selectedPlayer,
          ¬ ((g.droids d).droidType = DROID_TYPE.DROID_COMMAND ∧ (g.droids d).died = 0) := by
  rw [updateCommandersList_commanders, List.reverse_eq_nil_iff, List.filter_eq_nil_iff]
  constructor
  · intro h d hd hc
    exact h d hd ((isAliveCommander_iff g d).2 hc)
  · intro h d hd hc
    exact h d hd ((isAliveCommander_iff g d).1 hc)

/-- Claim C6: `refresh` leaves the commanders list rebuilt from the current
chain and the highlighted reference re-resolved on that rebuilt list, and
appends exactly one UI call: `closeInterface` if and only if the rebuilt list
is empty (the chain has no alive commander), otherwise `intAddOrder` with the
highlighted droid.  An empty chain gives an empty list and `closeInterface`. -/
theorem refresh_signals (resolve : GameState → CommanderController → Option DroidPtr)
    (s : Session) :
    (refresh resolve s).controller = updateCommandersList s.game s.controller
      ∧ getHighlightedObject (refresh resolve s).game
          = resolve s.game (updateCommandersList s.game s.controller)
      ∧ ((refresh resolve s).ui = s.ui ++ [UiCall.closeInterface]
          ∨ (refresh resolve s).ui
              = s.ui ++ [UiCall.intAddOrder (getHighlightedObject (refresh resolve s).game)])
      ∧ ((refresh resolve s).ui = s.ui ++ [UiCall.closeInterface]
          ↔ (updateCommandersList s.game s.controller).commanders = [])
      ∧ ((refresh resolve s).ui
            = s.ui ++ [UiCall.intAddOrder (getHighlightedObject (refresh resolve s).game)]
          ↔ (updateCommandersList s.game s.controller).commanders ≠ [])
      ∧ ((updateCommandersList s.game s.controller).commanders = []
          ↔ ∀ d ∈ s.game.apsDroidLists s.game.selectedPlayer,
              ¬ ((s.game.droids d).droidType = DROID_TYPE.DROID_COMMAND
                  ∧ (s.game.droids d).died = 0))
      ∧ (s.game.apsDroidLists s.game.selectedPlayer = [] →
          (refresh resolve s).controller.commanders = []
            ∧ (refresh resolve s).ui = s.ui ++ [UiCall.closeInterface]) := by
  have hempty : (updateCommandersList s.game s.controller).commanders = []
      → refresh resolve s = closeInterface (updateData resolve s) := by
    intro h
    simp [refresh, objectsSize, updateData_controller, h]
  have hnonempty : (updateCommandersList s.game s.controller).commanders ≠ []
      → refresh resolve s = displayOrderForm (updateData resolve s) := by
    intro h
    simp [refresh, objectsSize, updateData_controller, h]
  by_cases h : (updateCommandersList s.game s.controller).commanders = []
  · have hr := hempty h
    refine ⟨?_, ?_, ?_, ?_, ?_, rebuilt_eq_nil_iff _ _, ?_⟩
    · rw [hr]; rfl
    · rw [hr]; rfl
    · left; rw [hr]; rfl
    · rw [hr]; exact ⟨fun _ => h, fun _ => rfl⟩
    · rw [hr]
      constructor
      · intro hui
        simp [closeInterface, updateData_ui] at hui
      · intro hne
        exact absurd h hne
    · intro _
      rw [hr]
      exact ⟨h, rfl⟩
  · have hr := hnonempty h
    refine ⟨?_, ?_, ?_, ?_, ?_, rebuilt_eq_nil_iff _ _, ?_⟩
    · rw [hr]; rfl
    · rw [hr]; rfl
    · right; rw [hr]; rfl
    · rw [hr]
      constructor
      · intro hui
        simp [displayOrderForm, updateData_ui] at hui
      · intro he
        exact absurd he h
    · rw [hr]; exact ⟨fun _ => h, fun _ => rfl⟩
    · intro hunits
      exfalso
      apply h
      rw [updateCommandersList_commanders, hunits]
      rfl

/-- Witness for claim C6: in the scenario `refresh` replaces the stale list by
[D, A] and calls `intAddOrder` with D; for a player without units it empties
the list and calls `closeInterface`. -/
theorem refresh_signals_witness :
    (refresh keepOrFirst scenarioSession).controller.commanders = [4, 1]
      ∧ (refresh keepOrFirst scenarioSession).ui = [UiCall.intAddOrder (some 4)]
      ∧ (refresh keepOrFirst emptySession).controller.commanders = []
      ∧ (refresh keepOrFirst emptySession).ui = [UiCall.closeInterface] :=
  ⟨by decide, by decide,
    ((refresh_signals keepOrFirst emptySession).2.2.2.2.2.2 (by decide)).1,
    ((refresh_signals keepOrFirst emptySession).2.2.2.2.2.2 (by decide)).2⟩

/-- Claim C9: `showInterface` rebuilds the list and returns `false` exactly when
the rebuilt list is empty; returning `false` it makes no UI call, returning
`true` it attaches one objects form and then calls `intAddOrder` once with the
highlighted droid.  It returns `true` exactly when `refresh` from the same
state does not call `closeInterface`. -/
theorem showInterface_result (resolve : GameState → CommanderController → Option DroidPtr)
    (s : Session) :
    (showInterface resolve s).2.controller = updateCommandersList s.game s.controller
      ∧ ((showInterface resolve s).1 = false
          ↔ (updateCommandersList s.game s.controller).commanders = [])
      ∧ ((showInterface resolve s).1 = false → (showInterface resolve s).2.ui = s.ui)
      ∧ ((showInterface resolve s).1 = true →
          (showInterface resolve s).2.ui
            = s.ui ++ [UiCall.attachObjectsForm,
                UiCall.intAddOrder (getHighlightedObject (showInterface resolve s).2.game)]
          ∧ getHighlightedObject (showInterface resolve s).2.game
            = resolve s.game (updateCommandersList s.game s.controller))
      ∧ ((showInterface resolve s).1 = true
          ↔ (refresh resolve s).ui ≠ s.ui ++ [UiCall.closeInterface]) := by
  by_cases h : (updateCommandersList s.game s.controller).commanders = []
  · have hs : showInterface resolve s = (false, updateData resolve s) := by
      simp [showInterface, updateData_controller, h]
    have hr : refresh resolve s = closeInterface (updateData resolve s) := by
      simp [refresh, objectsSize, updateData_controller, h]
    rw [hs, hr]
    refine ⟨rfl, ⟨fun _ => h, fun _ => rfl⟩, fun _ => rfl, ?_, ?_⟩
    · intro hf
      exact Bool.noConfusion hf
    · constructor
      · intro hf
        exact Bool.noConfusion hf
      · intro hne
        exact absurd rfl hne
  · have hs : showInterface resolve s
        = (true, displayOrderForm
            { updateData resolve s with ui := (updateData resolve s).ui ++ [UiCall.attachObjectsForm] }) := by
      simp [showInterface, updateData_controller, h]
    have hr : refresh resolve s = displayOrderForm (updateData resolve s) := by
      simp [refresh, objectsSize, updateData_controller, h]
    rw [hs, hr]
    refine ⟨rfl, ⟨fun hf => Bool.noConfusion hf, fun he => absurd he h⟩, ?_, ?_, ?_⟩
    · intro hf
      exact Bool.noConfusion hf
    · intro _
      refine ⟨?_, rfl⟩
      simp [displayOrderForm, updateData_ui]
    · refine ⟨fun _ => ?_, fun _ => rfl⟩
      simp [displayOrderForm, updateData_ui]

/-- Witness for claim C9: in the scenario `showInterface` returns `true` after
attaching the form and calling `intAddOrder` with D; for a player without
units it returns `false` and makes no UI call. -/
theorem showInterface_result_witness :
    (showInterface keepOrFirst scenarioSession).1 = true
      ∧ (showInterface keepOrFirst scenarioSession).2.ui
          = [UiCall.attachObjectsForm, UiCall.intAddOrder (some 4)]
      ∧ (showInterface keepOrFirst emptySession).1 = false
      ∧ (showInterface keepOrFirst emptySession).2.ui = [] :=
  ⟨by decide, by decide, by decide,
    (showInterface_result keepOrFirst emptySession).2.2.1 (by decide)⟩

/-! ## Row selection -/

/-- Claim C7: `isSelected` at index `i` holds exactly when `getObjectAt i` is a
droid and that droid is the highlighted one.  So with a null highlighted
reference, or one that is not in the commanders list, no index is selected; and
in a list without duplicates at most one index is selected. -/
theorem isSelected_iff (g : GameState) (c : CommanderController) (i : Nat) :
    (isSelected g c i = true
        ↔ ∃ d, getObjectAt c i = some d ∧ getHighlightedObject g = some d)
      ∧ (getHighlightedObject g = none → ∀ j, isSelected g c j = false)
      ∧ ((∀ d, getHighlightedObject g = some d → d ∉ c.commanders) →
          ∀ j, isSelected g c j = false)
      ∧ (c.commanders.Nodup →
          ∀ j, isSelected g c i = true → isSelected g c j = true → i = j) := by
  have hiff : ∀ k, isSelected g c k = true
      ↔ ∃ d, getObjectAt c k = some d ∧ getHighlightedObject g = some d := by
    intro k
    unfold isSelected
    cases hk : getObjectAt c k with
    | none => simp
    | some d =>
      simp only [decide_eq_true_eq, Option.some.injEq, exists_eq_left']
      exact eq_comm
  have hmem : ∀ k d, getObjectAt c k = some d → d ∈ c.commanders := by
    intro k d hk
    rw [getObjectAt_eq_getElem?] at hk
    obtain ⟨hlt, heq⟩ := List.getElem?_eq_some.1 hk
    rw [← heq]
    exact List.getElem_mem hlt
  refine ⟨hiff i, ?_, ?_, ?_⟩
  · intro hnone j
    cases hj : isSelected g c j with
    | false => rfl
    | true =>
      obtain ⟨d, _, hd⟩ := (hiff j).1 hj
      rw [hnone] at hd
      exact Option.noConfusion hd
  · intro hnot j
    cases hj : isSelected g c j with
    | false => rfl
    | true =>
      obtain ⟨d, hget, hd⟩ := (hiff j).1 hj
      exact absurd (hmem j d hget) (hnot d hd)
  · intro hnodup j hi hj
    obtain ⟨d, hgi, hdi⟩ := (hiff i).1 hi
    obtain ⟨e, hgj, hdj⟩ := (hiff j).1 hj
    have hde : d = e := Option.some.inj (hdi.symm.trans hdj)
    subst hde
    rw [getObjectAt_eq_getElem?] at hgi hgj
    have hil : i < c.commanders.length := (List.getElem?_eq_some.1 hgi).1
    have hjl : j < c.commanders.length := (List.getElem?_eq_some.1 hgj).1
    have h1 : c.commanders[i] = d := (List.getElem?_eq_some.1 hgi).2
    have h2 : c.commanders[j] = d := (List.getElem?_eq_some.1 hgj).2
    exact (List.Nodup.getElem_inj_iff hnodup).1 (h1.trans h2.symm)

/-- Witness for claim C7: on the list [D, A] with D highlighted only index 0 is
selected; with the dead unit C highlighted no index is. -/
theorem isSelected_iff_witness :
    isSelected scenarioSession.game ⟨[4, 1]⟩ 0 = true
      ∧ isSelected scenarioSession.game ⟨[4, 1]⟩ 1 = false
      ∧ isSelected scenarioSession.game ⟨[4, 1]⟩ 2 = false
      ∧ (∀ j, isSelected { scenario with highlightedCommander := some 3 } ⟨[4, 1]⟩ j = false) :=
  ⟨by decide, by decide, by decide,
    (isSelected_iff { scenario with highlightedCommander := some 3 } ⟨[4, 1]⟩ 0).2.2.1
      (by intro d hd; cases hd; decide)⟩

/-! ## Assigned-factories label -/

theorem factoryBitSet_eq_testBit (word shift i : Nat) (hk : i + shift ≤ 31) :
    factoryBitSet word shift i = word.testBit (i + shift) := by
  unfold factoryBitSet
  have hword : word.testBit (i + shift) = (word % 2 ^ 32).testBit (i + shift) := by
    rw [Nat.testBit_mod_two_pow]
    simp [Nat.lt_succ_of_le hk]
  rw [hword]
  generalize word % 2 ^ 32 = so
  have h1 : (1 <<< (i + shift)) % 2 ^ 32 = 2 ^ (i + shift) := by
    rw [Nat.one_shiftLeft]
    apply Nat.mod_eq_of_lt
    exact Nat.pow_lt_pow_right (by decide) (by omega)
  rw [h1]
  cases hb : so.testBit (i + shift) with
  | false =>
    have hz : so &&& 2 ^ (i + shift) = 0 := by
      apply Nat.eq_of_testBit_eq
      intro j
      rw [Nat.testBit_and, Nat.testBit_two_pow, Nat.zero_testBit]
      by_cases hj : i + shift = j
      · subst hj; simp [hb]
      · simp [hj]
    simp [hz]
  | true =>
    have ht : (so &&& 2 ^ (i + shift)).testBit (i + shift) = true := by
      rw [Nat.testBit_and, Nat.testBit_two_pow]
      simp [hb]
    have hne : so &&& 2 ^ (i + shift) ≠ 0 := by
      intro h0
      rw [h0, Nat.zero_testBit] at ht
      exact Bool.noConfusion ht
    simp [hne]

theorem labelLoop_eq_labelLoopBits (so shift : Nat) (hshift : shift + 4 ≤ 31) :
    labelLoop so shift maxAssignedFactories
      = labelLoopBits (so.testBit (0 + shift)) (so.testBit (1 + shift)) (so.testBit (2 + shift))
          (so.testBit (3 + shift)) (so.testBit (4 + shift)) := by
  have hloop : labelLoop so shift maxAssignedFactories
      = labelStep so shift (labelStep so shift (labelStep so shift (labelStep so shift
          (labelStep so shift ([0, 0, 0, 0, 0, 0], 0) 0) 1) 2) 3) 4 := rfl
  rw [hloop]
  unfold labelStep labelLoopBits
  rw [factoryBitSet_eq_testBit so shift 0 (by omega),
    factoryBitSet_eq_testBit so shift 1 (by omega),
    factoryBitSet_eq_testBit so shift 2 (by omega),
    factoryBitSet_eq_testBit so shift 3 (by omega),
    factoryBitSet_eq_testBit so shift 4 (by omega)]

theorem assignedDigits_eq_digitsOfBits (so shift : Nat) :
    assignedDigits so shift
      = digitsOfBits (so.testBit (0 + shift)) (so.testBit (1 + shift)) (so.testBit (2 + shift))
          (so.testBit (3 + shift)) (so.testBit (4 + shift)) := by
  have hr : List.range 5 = [0, 1, 2, 3, 4] := rfl
  unfold assignedDigits digitsOfBits
  rw [hr]
  simp only [List.filter_cons, List.filter_nil]
  generalize so.testBit (0 + shift) = b0
  generalize so.testBit (1 + shift) = b1
  generalize so.testBit (2 + shift) = b2
  generalize so.testBit (3 + shift) = b3
  generalize so.testBit (4 + shift) = b4
  cases b0 <;> cases b1 <;> cases b2 <;> cases b3 <;> cases b4 <;> rfl

theorem labelLoopBits_facts (b0 b1 b2 b3 b4 : Bool) :
    cString (labelLoopBits b0 b1 b2 b3 b4).1 = String.mk (digitsOfBits b0 b1 b2 b3 b4)
      ∧ (labelLoopBits b0 b1 b2 b3 b4).2 = (digitsOfBits b0 b1 b2 b3 b4).length
      ∧ (labelLoopBits b0 b1 b2 b3 b4).1.length = 6
      ∧ (labelLoopBits b0 b1 b2 b3 b4).1[5]? = some 0
      ∧ ((labelLoopBits b0 b1 b2 b3 b4).2 = 0
          ↔ b0 = false ∧ b1 = false ∧ b2 = false ∧ b3 = false ∧ b4 = false)
      ∧ List.Pairwise (fun a b => a.toNat < b.toNat) (digitsOfBits b0 b1 b2 b3 b4) := by
  cases b0 <;> cases b1 <;> cases b2 <;> cases b3 <;> cases b4 <;>
    exact ⟨rfl, rfl, rfl, rfl, by decide, by decide⟩

theorem forall_lt_five (P : Nat → Prop) :
    (∀ i, i < 5 → P i) ↔ P 0 ∧ P 1 ∧ P 2 ∧ P 3 ∧ P 4 := by
  constructor
  · intro h
    exact ⟨h 0 (by decide), h 1 (by decide), h 2 (by decide), h 3 (by decide), h 4 (by decide)⟩
  · rintro ⟨h0, h1, h2, h3, h4⟩ i hi
    interval_cases i <;> assumption

theorem labelLoop_index_le (so shift n : Nat) : (labelLoop so shift n).2 ≤ n := by
  induction n with
  | zero => simp [labelLoop]
  | succ k ih =>
    have hstep : labelLoop so shift (k + 1) = labelStep so shift (labelLoop so shift k) k := by
      simp [labelLoop, List.range_succ, List.foldl_append]
    rw [hstep]
    unfold labelStep
    split
    · exact Nat.succ_le_succ ih
    · exact Nat.le_succ_of_le ih

/-- Claim C8: for a shift with `shift + 4 ≤ 31`, the buffer filled by
`updateAssignedFactoriesLabel` reads as the digits `'1' + i` of the `i` in
`0..4` whose bit `i + shift` is set in the droid's `secondaryOrder`, in
ascending order; the write index is at most the number of iterations done, ends
as the length of the text (at most 5), and the sixth byte of the buffer stays
zero; the label is shown with that text when one of the five bits is set and
hidden exactly when none is; bits outside the five positions do not matter. -/
theorem updateAssignedFactoriesLabel_text (g : GameState) (label : W_LABEL) (droid : DroidPtr)
    (shift : Nat) (hshift : shift + 4 ≤ 31) :
    cString (labelLoop (g.droids droid).secondaryOrder shift maxAssignedFactories).1
        = String.mk (assignedDigits (g.droids droid).secondaryOrder shift)
      ∧ List.Pairwise (fun a b => a.toNat < b.toNat)
          (assignedDigits (g.droids droid).secondaryOrder shift)
      ∧ (∀ n, (labelLoop (g.droids droid).secondaryOrder shift n).2 ≤ n)
      ∧ (labelLoop (g.droids droid).secondaryOrder shift maxAssignedFactories).2
          = (assignedDigits (g.droids droid).secondaryOrder shift).length
      ∧ (labelLoop (g.droids droid).secondaryOrder shift maxAssignedFactories).2 ≤ 5
      ∧ (labelLoop (g.droids droid).secondaryOrder shift maxAssignedFactories).1.length = 6
      ∧ (labelLoop (g.droids droid).secondaryOrder shift maxAssignedFactories).1[5]? = some 0
      ∧ ((∃ i, i < 5 ∧ (g.droids droid).secondaryOrder.testBit (i + shift) = true) →
          updateAssignedFactoriesLabel g label droid shift
            = { text := String.mk (assignedDigits (g.droids droid).secondaryOrder shift),
                visible := true })
      ∧ ((∀ i, i < 5 → (g.droids droid).secondaryOrder.testBit (i + shift) = false) →
          updateAssignedFactoriesLabel g label droid shift = { label with visible := false })
      ∧ ((updateAssignedFactoriesLabel g label droid shift).visible = false
          ↔ ∀ i, i < 5 → (g.droids droid).secondaryOrder.testBit (i + shift) = false)
      ∧ (∀ (g2 : GameState) (droid2 : DroidPtr),
          (∀ i, i < 5 → (g2.droids droid2).secondaryOrder.testBit (i + shift)
              = (g.droids droid).secondaryOrder.testBit (i + shift)) →
          updateAssignedFactoriesLabel g2 label droid2 shift
            = updateAssignedFactoriesLabel g label droid shift) := by
  have hupd : ∀ (g1 : GameState) (d1 : DroidPtr), updateAssignedFactoriesLabel g1 label d1 shift
      = if (labelLoop (g1.droids d1).secondaryOrder shift maxAssignedFactories).2 > 0 then
          { text := cString (labelLoop (g1.droids d1).secondaryOrder shift maxAssignedFactories).1,
            visible := true }
        else { label with visible := false } := fun _ _ => rfl
  have hsecond : ∀ (g2 : GameState) (droid2 : DroidPtr),
      (∀ i, i < 5 → (g2.droids droid2).secondaryOrder.testBit (i + shift)
          = (g.droids droid).secondaryOrder.testBit (i + shift)) →
      labelLoop (g2.droids droid2).secondaryOrder shift maxAssignedFactories
        = labelLoop (g.droids droid).secondaryOrder shift maxAssignedFactories := by
    intro g2 droid2 hsame
    rw [labelLoop_eq_labelLoopBits _ shift hshift, labelLoop_eq_labelLoopBits _ shift hshift,
      hsame 0 (by decide), hsame 1 (by decide), hsame 2 (by decide), hsame 3 (by decide),
      hsame 4 (by decide)]
  have hthis := hupd g droid
  generalize (g.droids droid).secondaryOrder = so at *
  have hloop := labelLoop_eq_labelLoopBits so shift hshift
  have hdig := assignedDigits_eq_digitsOfBits so shift
  obtain ⟨f1, f2, f3, f4, f5, f6⟩ := labelLoopBits_facts (so.testBit (0 + shift))
    (so.testBit (1 + shift)) (so.testBit (2 + shift)) (so.testBit (3 + shift))
    (so.testBit (4 + shift))
  rw [← hloop, ← hdig] at f1 f2
  rw [← hloop] at f3 f4 f5
  rw [← hdig] at f6
  have hnone : (labelLoop so shift maxAssignedFactories).2 = 0
      ↔ ∀ i, i < 5 → so.testBit (i + shift) = false := by
    rw [f5]
    exact (forall_lt_five (fun i => so.testBit (i + shift) = false)).symm
  have hshown : ¬ (labelLoop so shift maxAssignedFactories).2 = 0 →
      (if (labelLoop so shift maxAssignedFactories).2 > 0 then
          ({ text := cString (labelLoop so shift maxAssignedFactories).1, visible := true } : W_LABEL)
        else { label with visible := false })
        = { text := String.mk (assignedDigits so shift), visible := true } := by
    intro h
    rw [if_pos (Nat.pos_of_ne_zero h), f1]
  have hhidden : (labelLoop so shift maxAssignedFactories).2 = 0 →
      (if (labelLoop so shift maxAssignedFactories).2 > 0 then
          ({ text := cString (labelLoop so shift maxAssignedFactories).1, visible := true } : W_LABEL)
        else { label with visible := false })
        = { label with visible := false } := by
    intro h
    rw [if_neg (by omega)]
  rw [hthis]
  refine ⟨f1, f6, labelLoop_index_le so shift, f2, ?_, f3, f4, ?_, ?_, ?_, ?_⟩
  · exact labelLoop_index_le so shift maxAssignedFactories
  · rintro ⟨i, hi, hbit⟩
    apply hshown
    intro h0
    have := hnone.1 h0 i hi
    rw [hbit] at this
    exact Bool.noConfusion this
  · intro hall
    exact hhidden (hnone.2 hall)
  · constructor
    · intro hvis
      by_cases h0 : (labelLoop so shift maxAssignedFactories).2 = 0
      · exact hnone.1 h0
      · rw [hshown h0] at hvis
        exact Bool.noConfusion hvis
    · intro hall
      rw [hhidden (hnone.2 hall)]
  · intro g2 droid2 hsame
    rw [hupd g2 droid2, hsecond g2 droid2 hsame]

/-- Witness for claim C8: with shift 13, the label "x" of D (bits 13, 15, 17
set, and bits 3 and 20 outside the window) becomes the shown label "135"; the
one of A (only bits 3 and 20 set) is hidden. -/
theorem updateAssignedFactoriesLabel_text_witness :
    updateAssignedFactoriesLabel scenario ⟨"x", false⟩ 4 13 = ⟨"135", true⟩
      ∧ updateAssignedFactoriesLabel scenario ⟨"x", true⟩ 1 13 = ⟨"x", false⟩
      ∧ cString (labelLoop (scenario.droids 4).secondaryOrder 13 maxAssignedFactories).1
        = String.mk (assignedDigits (scenario.droids 4).secondaryOrder 13) :=
  ⟨by decide, by decide,
    (updateAssignedFactoriesLabel_text scenario ⟨"x", false⟩ 4 13 (by decide)).1⟩

/-! ## Experience stars -/

theorem toInt_of_lt (level : Nat) (h : level < 2 ^ 31) : toInt level = (level : Int) := by
  have hmod : level % 2 ^ 32 = level := Nat.mod_eq_of_lt (by omega)
  unfold toInt
  rw [hmod, if_pos h]

/-- Claim C10: for a level `L` that fits in `int`, the number of stars is
`max (L - 1) 0` in signed arithmetic: `0` for `L = 0` and `L = 1`, `L - 1` for
`L ≥ 1`, never negative, non-decreasing in `L`; and the label of a droid of
level `L` is shown with that many `'*'`. -/
theorem numStars_eq_max (level : Nat) (hlevel : level < 2 ^ 31) :
    numStars level = max ((level : Int) - 1) 0
      ∧ numStars 0 = 0
      ∧ numStars 1 = 0
      ∧ (1 ≤ level → numStars level = (level : Int) - 1)
      ∧ 0 ≤ numStars level
      ∧ (∀ level2, level ≤ level2 → level2 < 2 ^ 31 → numStars level ≤ numStars level2)
      ∧ (∀ (getDroidLevel : DroidPtr → Nat) (label : W_LABEL) (droid : DroidPtr),
          getDroidLevel droid = level →
          updateExperienceStarsLabel getDroidLevel label droid
            = { text := String.mk (List.replicate (level - 1) '*'), visible := true }) := by
  have hn : ∀ l, l < 2 ^ 31 → numStars l = max ((l : Int) - 1) 0 := by
    intro l hl
    unfold numStars
    rw [toInt_of_lt l hl]
  refine ⟨hn level hlevel, by decide, by decide, ?_, ?_, ?_, ?_⟩
  · intro h1
    rw [hn level hlevel]
    omega
  · rw [hn level hlevel]
    omega
  · intro level2 hle h2
    rw [hn level hlevel, hn level2 h2]
    omega
  · intro getDroidLevel label droid hdroid
    unfold updateExperienceStarsLabel
    have hnat : (numStars level).toNat = level - 1 := by
      rw [hn level hlevel]
      omega
    rw [hdroid, hnat]

/-- Witness for claim C10: level 0 gives no star (an unsigned `0 - 1` would be
4294967295), level 4 gives three. -/
theorem numStars_eq_max_witness :
    numStars 0 = 0
      ∧ numStars 4 = 3
      ∧ updateExperienceStarsLabel scenarioLevel ⟨"", false⟩ 1 = ⟨"", true⟩
      ∧ updateExperienceStarsLabel scenarioLevel ⟨"", false⟩ 4 = ⟨"***", true⟩ :=
  ⟨by decide, (numStars_eq_max 4 (by decide)).2.2.2.1 (by decide), by decide,
    (numStars_eq_max 4 (by decide)).2.2.2.2.2.2 scenarioLevel ⟨"", false⟩ 4 (by decide)⟩

end Commander
